import Mathlib

/-!
Verification of the Miami-Dade parking-citation scraper (`src/main.py`).

The development shallowly embeds the pure content of the Python source:

* Python dictionaries are modelled as ordered association lists with the
  CPython semantics: assigning to an existing key updates its value in
  place keeping its position, assigning to a fresh key appends it.
* Parsed HTML pages are modelled structurally by the projections the code
  actually queries: table rows with header/data cells and anchor targets,
  spans with element ids, input elements with id and value attributes,
  and the two labelled elements the pipeline reads.
* Network calls are modelled by outcome traces (one outcome per attempt);
  an outcome is a received page, a timeout, the raise-on-bad-status error
  of a non-2xx response, or another transport failure.  All four cases of
  `requests.exceptions.RequestException` handling in the source are kept
  apart so that retry classification can be stated exactly.
-/

namespace ParkingApi

/-! ## Python dictionary model -/

/-- Value of a Python dict entry as used by the scraper: a string, a
boolean, or `None`. -/
inductive PyVal where
  | str (s : String)
  | bool (b : Bool)
  | none
deriving DecidableEq

/-- An insertion-ordered dictionary with `PyVal` values. -/
abbrev PyDict := List (String × PyVal)

/-- An insertion-ordered dictionary with string values (used for the raw
detail mapping returned by `parse_citation_details`). -/
abbrev StrDict := List (String × String)

/-- CPython dict assignment `d[k] = v`: update in place if the key exists
(keeping its position), else append. -/
def dictInsert {α : Type} (d : List (String × α)) (k : String) (v : α) : List (String × α) :=
  if d.any (fun p => p.1 == k) then
    d.map (fun p => if p.1 == k then (k, v) else p)
  else d ++ [(k, v)]

/-- Lookup `d.get(k)`, returning the entry's value when the key exists. -/
def dictGet {α : Type} (d : List (String × α)) (k : String) : Option α :=
  (d.find? (fun p => p.1 == k)).map (fun p => p.2)

/-- Containment test `k in d`. -/
def dictHas {α : Type} (d : List (String × α)) (k : String) : Bool :=
  d.any (fun p => p.1 == k)

/-- Key sequence of the dictionary, in insertion order. -/
def dictKeys {α : Type} (d : List (String × α)) : List String :=
  d.map (fun p => p.1)

/-- Dict assignment specialised to record dictionaries. -/
abbrev pyInsert (d : PyDict) (k : String) (v : PyVal) : PyDict := dictInsert d k v

/-- Dict lookup specialised to record dictionaries. -/
abbrev pyGet (d : PyDict) (k : String) : Option PyVal := dictGet d k

/-- Containment test specialised to record dictionaries. -/
abbrev pyHas (d : PyDict) (k : String) : Bool := dictHas d k

/-- Key sequence specialised to record dictionaries. -/
abbrev pyKeys (d : PyDict) : List String := dictKeys d

/-- Dict assignment specialised to string dictionaries. -/
abbrev sInsert (d : StrDict) (k v : String) : StrDict := dictInsert d k v

/-- Dict lookup specialised to string dictionaries. -/
abbrev sGet (d : StrDict) (k : String) : Option String := dictGet d k

/-- Containment test specialised to string dictionaries. -/
abbrev sHas (d : StrDict) (k : String) : Bool := dictHas d k

/-- Python truthiness for the values a record can hold (used by
`citation.get("needs_payment", False)` in a boolean context). -/
def pyTruthy : PyVal → Bool
  | .str s => !(s == "")
  | .bool b => b
  | .none => false

/-! ## String primitives

Python's string methods are modelled structurally over the character
list of the string (ASCII case folding, which covers every literal the
source compares), so that every definition evaluates by kernel
reduction. -/

/-- Lowercasing, as applied by `.lower()` to header texts and labels. -/
def lowerStr (s : String) : String :=
  String.mk (s.data.map Char.toLower)

/-- Character-list core of Python's `sub in s` substring test. -/
def containsSubChars (sub : List Char) : List Char → Bool
  | [] => sub.isEmpty
  | c :: t => sub.isPrefixOf (c :: t) || containsSubChars sub t

/-- Python's substring test `sub in s`. -/
def strContains (s sub : String) : Bool :=
  containsSubChars sub.data s.data

/-- Character-list split on a separator predicate, keeping empty
segments exactly as Python's `str.split(sep)` does. -/
def splitChars (p : Char → Bool) : List Char → List (List Char)
  | [] => [[]]
  | c :: t =>
    let r := splitChars p t
    if p c then [] :: r
    else
      match r with
      | h :: rest => (c :: h) :: rest
      | [] => [[c]]

/-- Python's `str.strip()`: drop whitespace from both ends. -/
def stripStr (s : String) : String :=
  String.mk (((s.data.dropWhile Char.isWhitespace).reverse.dropWhile Char.isWhitespace).reverse)

/-- Python's `str.upper()` (ASCII). -/
def upperStr (s : String) : String :=
  String.mk (s.data.map Char.toUpper)

/-- Code-point lexicographic comparison of character lists; this is the
string order Python's `sort` applies to the citation-id keys. -/
def charListLe : List Char → List Char → Bool
  | [], _ => true
  | _ :: _, [] => false
  | a :: as, b :: bs => if a = b then charListLe as bs else decide (a < b)

/-! ## Structural HTML model -/

/-- One table cell: a header cell (`th`) or data cell (`td`), its
whitespace-stripped text, and the `href` of the first anchor inside the
cell when one is present. -/
structure Cell where
  isHeader : Bool
  text : String
  anchorHref : Option String
deriving DecidableEq

/-- One table row (`tr`). -/
structure Tr where
  cells : List Cell
deriving DecidableEq

/-- One `table` element: its rows plus its `class` attribute (queried by
the detail-page fallback scan). -/
structure HtmlTable where
  cls : String
  rows : List Tr
deriving DecidableEq

/-- Header cells (`th`) of a row, in document order. -/
def rowTh (r : Tr) : List Cell :=
  r.cells.filter (fun c => c.isHeader)

/-- Data cells (`td`) of a row, in document order. -/
def rowTd (r : Tr) : List Cell :=
  r.cells.filter (fun c => !c.isHeader)

/-- All `th` cells of a table (`table.find_all("th")` searches every
row, not only the first one). -/
def tableTh (t : HtmlTable) : List Cell :=
  (t.rows.map rowTh).flatten

/-! ## Results-table locator (`find_results_table`, src/main.py:120-133) -/

/-- Header names required of the citations table. -/
def neededHeaders : List String :=
  ["citation", "date issued", "status", "amount due"]

/-- Lowercased stripped text of every `th` in the table. -/
def tableHeadersLower (t : HtmlTable) : List String :=
  (tableTh t).map (fun c => lowerStr c.text)

/-- Test applied to each table by `find_results_table`: skip tables with
no `th` at all, then require the needed header set to be a subset of the
collected header texts. -/
def tableMatches (t : HtmlTable) : Bool :=
  let headers := tableHeadersLower t
  if headers.isEmpty then false
  else neededHeaders.all (fun n => headers.contains n)

/-- Embedding of `find_results_table`: first table whose `th` texts
(lowercased) contain all needed headers, else `none`. -/
def find_results_table (tables : List HtmlTable) : Option HtmlTable :=
  tables.find? tableMatches

/-! ## Results-row parser (`parse_main_rows`, src/main.py:135-177) -/

/-- One parsed summary row of the results table. -/
structure RawRow where
  citation : String
  dateIssued : String
  status : String
  amountDue : String
  expandTarget : Option String
deriving DecidableEq

/-- Accumulating pass behind the header dictionary comprehension
`{h.lower(): i for i, h in enumerate(header_cells)}` followed by
`.get(k, d)`: the index of the last occurrence of `k`, with default `d`. -/
def lastIndexFrom (k : String) : Nat → List String → Nat → Nat
  | _, [], d => d
  | i, h :: t, d => lastIndexFrom k (i + 1) t (if h == k then i else d)

/-- Index of the last occurrence of `k` in `hs`, or the default `d`. -/
def lastIndexOfD (hs : List String) (k : String) (d : Nat) : Nat :=
  lastIndexFrom k 0 hs d

/-- Text of the cell at position `i`, used after the row length guard. -/
def cellTextAt (tds : List Cell) (i : Nat) : String :=
  match tds[i]? with
  | some c => c.text
  | _ => ""

/-- Apostrophe character, the delimiter of the two-argument
`__doPostBack` calling convention. -/
def quoteChar : Char := Char.ofNat 39

/-- Extraction of the postback target from the first anchor of the
first-column cell: require `__doPostBack` in the href, split on the
apostrophe delimiter, and take the first argument. -/
def expandFromCell (c : Cell) : Option String :=
  match c.anchorHref with
  | some href =>
    if strContains href "__doPostBack" then
      let parts := (splitChars (fun ch => ch = quoteChar) href.data).map String.mk
      if parts.length ≥ 2 then parts[1]? else Option.none
    else Option.none
  | _ => Option.none

/-- Column indices derived from the lowered header texts, with the
defaults used by the source. -/
structure ColIdx where
  idxPlus : Nat
  idxCit : Nat
  idxDate : Nat
  idxStatus : Nat
  idxAmount : Nat
deriving DecidableEq

/-- Header-driven column-index derivation of `parse_main_rows`. -/
def colIdxOf (lowered : List String) : ColIdx where
  idxPlus := lastIndexOfD lowered "more info" 0
  idxCit := lastIndexOfD lowered "citation" 1
  idxDate := lastIndexOfD lowered "date issued" 2
  idxStatus := lastIndexOfD lowered "status" 3
  idxAmount := lastIndexOfD lowered "amount due" 4

/-- Per-row extraction of `parse_main_rows`: skip the row when it has
fewer cells than the largest derived index requires or when the citation
cell is empty, else build the summary row from the derived columns. -/
def parseRow (ci : ColIdx) (tr : Tr) : Option RawRow :=
  let tds := rowTd tr
  if tds.length < max (max (max (max ci.idxAmount ci.idxStatus) ci.idxDate) ci.idxCit) ci.idxPlus + 1 then
    Option.none
  else
    let citationText := cellTextAt tds ci.idxCit
    if citationText = "" then Option.none
    else some
      { citation := citationText
        dateIssued := cellTextAt tds ci.idxDate
        status := cellTextAt tds ci.idxStatus
        amountDue := cellTextAt tds ci.idxAmount
        expandTarget :=
          match tds[ci.idxPlus]? with
          | some c => expandFromCell c
          | _ => Option.none }

/-- Embedding of `parse_main_rows`: return no rows when the table has
fewer than two rows, else derive the column indices from the first row's
`th` texts and extract every remaining row. -/
def parse_main_rows (t : HtmlTable) : List RawRow :=
  match t.rows with
  | [] => []
  | [_] => []
  | tr0 :: rest =>
    let lowered := (rowTh tr0).map (fun c => lowerStr c.text)
    rest.filterMap (parseRow (colIdxOf lowered))

/-! ## Detail-page parser (`parse_citation_details`, src/main.py:179-232) -/

/-- A citation detail page: the `span` elements carrying known ids (id
and stripped text, in document order) and the page's tables. -/
structure DetailPage where
  spans : List (String × String)
  tables : List HtmlTable
deriving DecidableEq

/-- Fourteen known element-id to field-name mappings, in source order. -/
def id_mappings : List (String × String) :=
  [("lb_Citation", "citation_number"),
   ("lb_Tag", "tag_number"),
   ("lb_State", "state"),
   ("lb_IssueDateTime", "issue_date_time"),
   ("lb_amountdue", "amount_due_now"),
   ("lb_duedate", "due_date"),
   ("lb_amountdueafter", "amount_due_after_due_date"),
   ("lb_Status", "status"),
   ("lb_Violation", "violation_type"),
   ("lb_location", "location"),
   ("lb_municipality", "municipality"),
   ("lb_carmake", "vehicle_make"),
   ("lb_carstyle", "vehicle_style"),
   ("lb_color", "vehicle_color")]

/-- Normalisation of one (already lowercased) character of a fallback
label: spaces and slashes become underscores, an ampersand becomes
"and", anything else stays. -/
def cleanChar (c : Char) : List Char :=
  if c = ' ' then ['_']
  else if c = '/' then ['_']
  else if c = '&' then ['a', 'n', 'd'] else [c]

/-- Key normalisation of the fallback scan: lowercase, spaces and
slashes to underscores, ampersand to "and". -/
def cleanKey (k : String) : String :=
  String.mk (((k.data.map Char.toLower).map cleanChar).flatten)

/-- Style marker selecting the informational tables of the fallback
scan. -/
def fallbackClass : String := "table table-bordered mb-0"

/-- One step of the known-identifier pass: look the span up by element
id and, when found, store its stripped text under the mapped field
name. -/
def knownStep (p : DetailPage) (d : StrDict) (m : String × String) : StrDict :=
  match p.spans.find? (fun s => s.1 == m.1) with
  | some s => sInsert d m.2 s.2
  | _ => d

/-- First pass of `parse_citation_details`: fold the known
element-id mappings in source order. -/
def knownFieldPass (p : DetailPage) : StrDict :=
  id_mappings.foldl (knownStep p) []

/-- One row of the fallback scan: with at least two cells and non-empty
label and value, store the value under the normalised label prefixed
with `table_`. -/
def fallbackRowStep (d : StrDict) (r : Tr) : StrDict :=
  match r.cells with
  | c0 :: c1 :: _ =>
    if c0.text ≠ "" ∧ c1.text ≠ "" then
      sInsert d ("table_" ++ cleanKey c0.text) c1.text
    else d
  | _ => d

/-- One table of the fallback scan: fold its rows. -/
def fallbackTableStep (d : StrDict) (t : HtmlTable) : StrDict :=
  t.rows.foldl fallbackRowStep d

/-- Second pass of `parse_citation_details`: fold every style-marked
table. -/
def fallbackScan (d0 : StrDict) (tables : List HtmlTable) : StrDict :=
  (tables.filter (fun t => t.cls == fallbackClass)).foldl fallbackTableStep d0

/-- Embedding of `parse_citation_details`. -/
def parse_citation_details (p : DetailPage) : StrDict :=
  fallbackScan (knownFieldPass p) p.tables

/-! ## Citation detail worker (`fetch_citation_details_worker`,
src/main.py:281-341) -/

/-- Basic per-citation record built from the summary row before any
detail is merged in: the four summary fields plus the two derived
payment fields. -/
def baseInfo (row : RawRow) : PyDict :=
  [("Citation", .str row.citation),
   ("Date Issued", .str row.dateIssued),
   ("Status", .str row.status),
   ("Amount Due", .str row.amountDue),
   ("needs_payment", .bool (row.status == "OPEN")),
   ("payment_required", .str (if row.status == "OPEN" then row.amountDue else "$0.00"))]

/-- CPython `dst.update(src)`: assign every entry of `src` into `dst`
in insertion order. -/
def dictUpdate {α : Type} (base l : List (String × α)) : List (String × α) :=
  l.foldl (fun d kv => dictInsert d kv.1 kv.2) base

/-- One entry of the worker's cleaning loop: strip the six-character
`table_` prefix from fallback keys, keep other keys as they are. -/
def cleanStep (d : PyDict) (kv : String × String) : PyDict :=
  if "table_".data.isPrefixOf kv.1.data then
    pyInsert d (String.mk (kv.1.data.drop 6)) (.str kv.2)
  else pyInsert d kv.1 (.str kv.2)

/-- Cleaning loop of the worker: copy the detail mapping into a fresh
dictionary, stripping the `table_` prefix from fallback keys. -/
def cleanDetails (details : StrDict) : PyDict :=
  details.foldl cleanStep []

/-- Embedding of `fetch_citation_details_worker`.  The detail fetch for
the row's citation either returns the parsed detail mapping or raises an
exception whose description is the carried string.  On success the
cleaned details are merged over the basic record and a due-date
placeholder is added when the merged record still lacks one; on any
exception a degraded record carrying the summary fields, the derived
payment fields, the placeholder and the error description is returned. -/
def fetch_citation_details_worker (row : RawRow) (fetched : Except String StrDict) : PyDict :=
  match fetched with
  | .error e =>
    baseInfo row ++
      [("due_date", .str "Not available"),
       ("due_date_estimated", .bool false),
       ("error", .str e)]
  | .ok details =>
    if details.isEmpty then baseInfo row
    else
      let info := dictUpdate (baseInfo row) (cleanDetails details)
      if pyHas info "due_date" then info
      else
        pyInsert (pyInsert info "due_date" (.str "Not available")) "due_date_estimated" (.bool false)

/-! ## Merge phase (`fetch_all_citations`, src/main.py:343-477) -/

/-- Sort key `x.get("Citation", "")` of the final sort. -/
def getCitationKey (d : PyDict) : String :=
  match pyGet d "Citation" with
  | some (.str s) => s
  | _ => ""

/-- Boolean reading of `citation.get("needs_payment", False)`. -/
def getNeedsPayment (d : PyDict) : Bool :=
  match pyGet d "needs_payment" with
  | some v => pyTruthy v
  | _ => false

/-- Comparison used to sort records by citation id ascending
(code-point lexicographic, Python's string order). -/
def citLe (a b : PyDict) : Bool :=
  charListLe (getCitationKey a).data (getCitationKey b).data

/-- Tag normalisation `tag_number.strip().upper()`. -/
def normTag (tag : String) : String :=
  upperStr (stripStr tag)

/-- Shape of the value returned by `fetch_all_citations`; `message` is
`none` when the key is absent from the returned dictionary. -/
structure SearchOutcome where
  tag_number : String
  total_citations : Nat
  total_paid : Nat
  total_open : Nat
  total_due : Option String
  paid_citations : List PyDict
  open_citations : List PyDict
  message : Option String
deriving DecidableEq

/-- Merge step of `fetch_all_citations` (lines 451-472): sort the
collected records by citation id, partition them by `needs_payment`, and
compute the totals from the partition sizes while `total_due` is passed
through verbatim. -/
def mergePhase (tag : String) (totalDue : Option String) (collected : List PyDict) : SearchOutcome :=
  let sorted := collected.mergeSort citLe
  let paid := sorted.filter (fun c => !getNeedsPayment c)
  let opened := sorted.filter (fun c => getNeedsPayment c)
  { tag_number := normTag tag
    total_citations := sorted.length
    total_paid := paid.length
    total_open := opened.length
    total_due := totalDue
    paid_citations := paid
    open_citations := opened
    message := Option.none }

/-- Per-row worker runs in submission order, each consuming the detail
fetch outcome of its own task index. -/
def runWorkersFrom (oracle : Nat → Except String StrDict) : Nat → List RawRow → List PyDict
  | _, [] => []
  | i, r :: rs => fetch_citation_details_worker r (oracle i) :: runWorkersFrom oracle (i + 1) rs

/-- Concurrent fan-out of the pipeline: one worker per summary row; the
outcome of task `i` is `oracle i`. -/
def runWorkers (rows : List RawRow) (oracle : Nat → Except String StrDict) : List PyDict :=
  runWorkersFrom oracle 0 rows

/-- Results page as consumed by steps 4-5 of `fetch_all_citations`: the
page's tables, the stripped text of the `lblErrorTag` element when
present, and the stripped text of the `lbl_totaldue_vTag` element when
present. -/
structure ResultsPage where
  tables : List HtmlTable
  errorLabel : Option String
  totalDueLabel : Option String
deriving DecidableEq

/-- Fallback message of the no-results branch. -/
def noResultsFallbackMsg : String := "No results table found."

/-- Embedding of steps 4-5 of `fetch_all_citations`: locate the results
table (no table yields the message-carrying zero outcome), parse its
rows (zero rows yield the message-free zero outcome carrying the page's
total-due text), else fan out the workers and merge. -/
def fetch_all_from_results (tag : String) (page : ResultsPage)
    (oracle : Nat → Except String StrDict) : SearchOutcome :=
  match find_results_table page.tables with
  | Option.none =>
    { tag_number := normTag tag
      total_citations := 0
      total_paid := 0
      total_open := 0
      total_due := Option.none
      paid_citations := []
      open_citations := []
      message := some (match page.errorLabel with
        | some m => m
        | _ => noResultsFallbackMsg) }
  | some t =>
    let rows := parse_main_rows t
    let totalDue := page.totalDueLabel
    if rows.length = 0 then
      { tag_number := normTag tag
        total_citations := 0
        total_paid := 0
        total_open := 0
        total_due := totalDue
        paid_citations := []
        open_citations := []
        message := Option.none }
    else
      mergePhase tag totalDue (runWorkers rows oracle)

/-! ## Form-state extractor (`extract_hidden_fields`, src/main.py:77-86) -/

/-- An `input` element: its id attribute and value attribute, either of
which may be absent. -/
structure InputEl where
  id : Option String
  value : Option String
deriving DecidableEq

/-- Lookup `soup.find("input", id=i)`: the first input carrying the
identifier. -/
def findInputById (inputs : List InputEl) (i : String) : Option InputEl :=
  inputs.find? (fun el => el.id == some i)

/-- Helper `val` of `extract_hidden_fields`: the value attribute of the
first input with the identifier, or the empty string when the element or
its value attribute is absent. -/
def hiddenVal (inputs : List InputEl) (i : String) : String :=
  match findInputById inputs i with
  | some el =>
    match el.value with
    | some v => v
    | _ => ""
  | _ => ""

/-- Embedding of `extract_hidden_fields`. -/
def extract_hidden_fields (inputs : List InputEl) : StrDict :=
  [("__VIEWSTATE", hiddenVal inputs "__VIEWSTATE"),
   ("__EVENTVALIDATION", hiddenVal inputs "__EVENTVALIDATION"),
   ("__VIEWSTATEGENERATOR", hiddenVal inputs "__VIEWSTATEGENERATOR")]

/-! ## Network model (`postback`, src/main.py:88-116, and the direct
session calls of the pipeline) -/

/-- Outcome of one network attempt: a successfully received 2xx page,
a request timeout, the raise-on-bad-status error of a received non-2xx
response, or another transport-level failure. -/
inductive NetOutcome where
  | success (p : Nat)
  | timeout
  | httpError (status : Nat)
  | transportFail (msg : String)
deriving DecidableEq

/-- Error surfaced by a failed attempt.  Both `httpError` (the
`HTTPError` of `raise_for_status`) and `transportFail` are subclasses of
`requests.exceptions.RequestException` in the source. -/
inductive NetErr where
  | timeout
  | httpError (status : Nat)
  | transportFail (msg : String)
deriving DecidableEq

/-- Result of one attempt: `session.post` followed by
`raise_for_status`. -/
def attemptResult : NetOutcome → Except NetErr Nat
  | .success p => .ok p
  | .timeout => .error .timeout
  | .httpError s => .error (.httpError s)
  | .transportFail m => .error (.transportFail m)

/-- Backoff slept before every attempt after the first
(`time.sleep(0.5)`), in milliseconds. -/
def postbackSleepMs : Nat := 500

/-- Retry loop of `postback`: each iteration consumes the next trace
outcome; `except requests.exceptions.Timeout` and
`except requests.exceptions.RequestException` both re-raise on the final
attempt and otherwise continue the loop. -/
def postbackLoop (trace : Nat → NetOutcome) (attempt : Nat) : Nat → Except NetErr Nat
  | 0 => .error (.transportFail "Failed after max_retries attempts")
  | fuel + 1 =>
    match attemptResult (trace attempt) with
    | .ok p => .ok p
    | .error e => if fuel = 0 then .error e else postbackLoop trace (attempt + 1) fuel

/-- Embedding of `postback`'s control flow over a trace of attempt
outcomes; `maxRetries` attempts are available (the source default is 3),
and the loop's fall-through raise fires only when `maxRetries` is 0. -/
def postback (trace : Nat → NetOutcome) (maxRetries : Nat) : Except NetErr Nat :=
  if maxRetries = 0 then .error (.transportFail "Failed after max_retries attempts")
  else postbackLoop trace 0 maxRetries

/-- Traces of the pipeline's own network calls: the initial GET, the
tag-search POST, and the per-citation detail POST of
`fetch_citation_details_optimized` (keyed by citation number). -/
structure NetTraces where
  initialGet : Nat → NetOutcome
  searchPost : Nat → NetOutcome
  detailPost : String → Nat → NetOutcome

/-- One direct session call (`session.get`/`session.post` followed by
`raise_for_status`), as issued by `fetch_all_citations` and
`fetch_citation_details_optimized`: a single attempt, no retry loop. -/
def directCall (o : NetOutcome) : Except NetErr Nat :=
  attemptResult o

/-- Network skeleton of the search phase (steps 1-3 of
`fetch_all_citations`, lines 349-372): one direct GET, then one direct
POST; each consumes only the first outcome of its trace. -/
def searchPhaseNet (tr : NetTraces) : Except NetErr (Nat × Nat) :=
  match directCall (tr.initialGet 0) with
  | .error e => .error e
  | .ok p1 =>
    match directCall (tr.searchPost 0) with
    | .error e => .error e
    | .ok p2 => .ok (p1, p2)

/-- Network skeleton of one per-citation detail POST
(`fetch_citation_details_optimized`, line 274): a single direct call. -/
def detailPostNet (trace : Nat → NetOutcome) : Except NetErr Nat :=
  directCall (trace 0)

/-! ## Specification-side definitions (for refinement statements) -/

/-- Specification-side table criterion, following the specification's
words: the text of the table's header row (its first row's `th` cells),
lowercased, must contain the needed header set. -/
def headerRowMatch (t : HtmlTable) : Bool :=
  match t.rows with
  | [] => false
  | r0 :: _ =>
    let headers := (rowTh r0).map (fun c => lowerStr c.text)
    neededHeaders.all (fun n => headers.contains n)

/-- Lowercased header texts of the default column order, as they appear
on the portal. -/
def stdHeadersLower : List String :=
  ["more info", "citation", "date issued", "status", "amount due"]

/-- Specification-side row extraction: each semantic field is read from
the column at the position of its own header name in the header row. -/
def specExtractRow (lowered : List String) (tr : Tr) : RawRow :=
  { citation := cellTextAt (rowTd tr) (lowered.indexOf "citation")
    dateIssued := cellTextAt (rowTd tr) (lowered.indexOf "date issued")
    status := cellTextAt (rowTd tr) (lowered.indexOf "status")
    amountDue := cellTextAt (rowTd tr) (lowered.indexOf "amount due")
    expandTarget :=
      match (rowTd tr)[lowered.indexOf "more info"]? with
      | some c => expandFromCell c
      | _ => Option.none }

/-- Absence of detail keys that would collide with the two derived
payment fields after the worker strips the `table_` prefix. -/
def detailNoDerivedCollision (fetched : Except String StrDict) : Prop :=
  match fetched with
  | .ok details =>
    pyHas (cleanDetails details) "needs_payment" = false ∧
    pyHas (cleanDetails details) "payment_required" = false
  | .error _ => True

/-! ## Concrete inputs used by witnesses and counterexamples -/

/-- Data cell with the given text and no anchor. -/
def tdCell (s : String) : Cell :=
  { isHeader := false, text := s, anchorHref := Option.none }

/-- Header cell with the given text. -/
def thCell (s : String) : Cell :=
  { isHeader := true, text := s, anchorHref := Option.none }

/-- Closed summary row of a not-open citation. -/
def rowClosed : RawRow :=
  { citation := "C100", dateIssued := "01/02/2024", status := "CLOSED",
    amountDue := "$10.00", expandTarget := Option.none }

/-- Summary row of an open citation. -/
def rowOpen : RawRow :=
  { citation := "C200", dateIssued := "02/03/2024", status := "OPEN",
    amountDue := "$44.00", expandTarget := Option.none }

/-- Detail page whose fallback table row is labelled "Needs Payment":
after prefix stripping its key collides with the derived field. -/
def dpNeeds : DetailPage :=
  { spans := [],
    tables := [{ cls := "table table-bordered mb-0",
                 rows := [{ cells := [tdCell "Needs Payment", tdCell "yes"] }] }] }

/-- Detail page carrying both the known `lb_Citation` span and a
fallback table row labelled "Citation Number". -/
def dpCitNum : DetailPage :=
  { spans := [("lb_Citation", "A1")],
    tables := [{ cls := "table table-bordered mb-0",
                 rows := [{ cells := [tdCell "Citation Number", tdCell "B2"] }] }] }

/-- Detail page with one known span and one non-colliding fallback row. -/
def dpPlain : DetailPage :=
  { spans := [("lb_duedate", "03/04/2024")],
    tables := [{ cls := "table table-bordered mb-0",
                 rows := [{ cells := [tdCell "Issuing Officer", tdCell "Badge 7"] }] }] }

/-- Network trace whose first attempt is a received non-2xx response and
whose later attempts succeed. -/
def cexTraceHttp : Nat → NetOutcome :=
  fun i => if i = 0 then .httpError 500 else .success 7

/-- Network trace that times out on every attempt. -/
def traceAllTimeout : Nat → NetOutcome :=
  fun _ => .timeout

/-- GET trace that times out once and then succeeds. -/
def cexTraceGet : Nat → NetOutcome :=
  fun i => if i = 0 then .timeout else .success 1

/-- Pipeline traces around `cexTraceGet`. -/
def cexTraces : NetTraces :=
  { initialGet := cexTraceGet
    searchPost := fun _ => .success 2
    detailPost := fun _ _ => .success 3 }

/-- Results table holding only its header row. -/
def headerOnlyTable : HtmlTable :=
  { cls := "",
    rows := [{ cells := [thCell "Citation", thCell "Date Issued",
                         thCell "Status", thCell "Amount Due"] }] }

/-- Results page with a header-only table and a populated total-due
label. -/
def pgHeaderOnly : ResultsPage :=
  { tables := [headerOnlyTable], errorLabel := Option.none,
    totalDueLabel := some "$5.00" }

/-- Results page with no matching table and an error label whose
stripped text is empty. -/
def pgNoTable : ResultsPage :=
  { tables := [], errorLabel := some "", totalDueLabel := Option.none }

/-- Detail-fetch oracle failing every task. -/
def oracleFailAll : Nat → Except String StrDict :=
  fun _ => .error "detail fetch failed"

/-- Detail-fetch oracle failing only the first task. -/
def oracleFailFirst : Nat → Except String StrDict :=
  fun i => if i = 0 then .error "boom" else .ok []

/-- Header row in the permuted order named by the specification. -/
def permHeaderRow : Tr :=
  { cells := [thCell "More Info", thCell "Citation", thCell "Status",
              thCell "Date Issued", thCell "Amount Due"] }

/-- Data row under the permuted header order. -/
def permDataRow : Tr :=
  { cells := [tdCell "+", tdCell "CIT42", tdCell "OPEN",
              tdCell "01/02/2024", tdCell "$33.00"] }

/-- Results table whose header order is the permuted order named in the
specification, with one data row. -/
def permTable : HtmlTable :=
  { cls := "", rows := [permHeaderRow, permDataRow] }

/-- Pipeline traces that time out on every attempt. -/
def witTracesTimeout : NetTraces :=
  { initialGet := traceAllTimeout
    searchPost := traceAllTimeout
    detailPost := fun _ _ => NetOutcome.timeout }

/-- Input elements of the witness page for the form-state extractor. -/
def witInputs : List InputEl :=
  [{ id := some "__VIEWSTATE", value := some "vs1" },
   { id := some "__VIEWSTATEGENERATOR", value := Option.none },
   { id := some "other", value := some "x" }]

/-! ## Dictionary lemmas -/

theorem dictGet_cons {α : Type} (k0 : String) (v0 : α) (t : List (String × α)) (k : String) :
    dictGet ((k0, v0) :: t) k = if (k0 == k) then some v0 else dictGet t k := by
  by_cases h : (k0 == k) = true <;> simp [dictGet, List.find?_cons, h]

theorem dictHas_eq_true_iff {α : Type} (d : List (String × α)) (k : String) :
    dictHas d k = true ↔ k ∈ dictKeys d := by
  simp [dictHas, dictKeys, List.any_eq_true, List.mem_map, beq_iff_eq]

theorem dictInsert_cons {α : Type} (k0 : String) (v0 : α) (t : List (String × α))
    (k : String) (v : α) :
    dictInsert ((k0, v0) :: t) k v =
      if (k0 == k) then (k, v) :: t.map (fun p => if p.1 == k then (k, v) else p)
      else (k0, v0) :: dictInsert t k v := by
  by_cases h0 : (k0 == k) = true
  · have hany : (((k0, v0) :: t).any fun p => p.1 == k) = true := by
      simp [List.any_cons, h0]
    rw [dictInsert, if_pos hany, if_pos h0, List.map_cons, if_pos h0]
  · have h0f : (k0 == k) = false := by simpa using h0
    rw [if_neg (by simp [h0f])]
    by_cases ht : (t.any fun q => q.1 == k) = true
    · have hany : (((k0, v0) :: t).any fun p => p.1 == k) = true := by
        simp [List.any_cons, ht]
      rw [dictInsert, if_pos hany, List.map_cons, if_neg (by simp [h0f]), dictInsert, if_pos ht]
    · have htf : (t.any fun q => q.1 == k) = false := Bool.eq_false_iff.mpr ht
      have hany : (((k0, v0) :: t).any fun p => p.1 == k) = false := by
        simp [List.any_cons, h0f, htf]
      rw [dictInsert, if_neg (by simp [hany]), dictInsert, if_neg (by simp [htf]),
        List.cons_append]

theorem dictGet_map_update {α : Type} (t : List (String × α)) (k k' : String) (v : α)
    (h : k' ≠ k) :
    dictGet (t.map (fun p => if p.1 == k then (k, v) else p)) k' = dictGet t k' := by
  induction t with
  | nil => rfl
  | cons q t ih =>
    obtain ⟨kq, vq⟩ := q
    rw [List.map_cons]
    by_cases hq : (kq == k) = true
    · have hkq : kq = k := by simpa [beq_iff_eq] using hq
      have hne : (k == k') = false := beq_eq_false_iff_ne.mpr (fun hc => h hc.symm)
      have hneq : (kq == k') = false := by rw [hkq]; exact hne
      rw [if_pos hq, dictGet_cons, dictGet_cons, if_neg (by simp [hne]),
        if_neg (by simp [hneq]), ih]
    · have hqf : (kq == k) = false := by simpa using hq
      rw [if_neg (by simp [hqf]), dictGet_cons, dictGet_cons, ih]

theorem dictGet_insert_self {α : Type} (d : List (String × α)) (k : String) (v : α) :
    dictGet (dictInsert d k v) k = some v := by
  induction d with
  | nil => simp [dictInsert, dictGet]
  | cons p t ih =>
    obtain ⟨k0, v0⟩ := p
    rw [dictInsert_cons]
    by_cases h0 : (k0 == k) = true
    · rw [if_pos h0, dictGet_cons, if_pos (by simp)]
    · have h0f : (k0 == k) = false := by simpa using h0
      rw [if_neg (by simp [h0f]), dictGet_cons, if_neg (by simp [h0f]), ih]

theorem dictGet_insert_ne {α : Type} (d : List (String × α)) (k k' : String) (v : α)
    (h : k' ≠ k) :
    dictGet (dictInsert d k v) k' = dictGet d k' := by
  have hkk : (k == k') = false := beq_eq_false_iff_ne.mpr (fun hc => h hc.symm)
  induction d with
  | nil =>
    simp [dictInsert, dictGet, List.find?_cons, hkk]
  | cons p t ih =>
    obtain ⟨k0, v0⟩ := p
    rw [dictInsert_cons]
    by_cases h0 : (k0 == k) = true
    · have hkq : k0 = k := by simpa [beq_iff_eq] using h0
      have hneq : (k0 == k') = false := by rw [hkq]; exact hkk
      rw [if_pos h0, dictGet_cons, dictGet_cons, if_neg (by simp [hkk]),
        if_neg (by simp [hneq]), dictGet_map_update t k k' v h]
    · have h0f : (k0 == k) = false := by simpa using h0
      rw [if_neg (by simp [h0f]), dictGet_cons, dictGet_cons, ih]

theorem dictHas_eq_isSome {α : Type} (d : List (String × α)) (k : String) :
    dictHas d k = (dictGet d k).isSome := by
  induction d with
  | nil => rfl
  | cons p t ih =>
    obtain ⟨k0, v0⟩ := p
    by_cases h0 : (k0 == k) = true <;> simp [dictHas, dictGet_cons, h0, ← ih, List.any_cons]

theorem dictHas_insert_self {α : Type} (d : List (String × α)) (k : String) (v : α) :
    dictHas (dictInsert d k v) k = true := by
  rw [dictHas_eq_isSome, dictGet_insert_self]
  rfl

theorem dictHas_insert_ne {α : Type} (d : List (String × α)) (k k' : String) (v : α)
    (h : k' ≠ k) :
    dictHas (dictInsert d k v) k' = dictHas d k' := by
  rw [dictHas_eq_isSome, dictHas_eq_isSome, dictGet_insert_ne d k k' v h]

theorem dictKeys_insert_of_has {α : Type} (d : List (String × α)) (k : String) (v : α)
    (h : d.any (fun p => p.1 == k) = true) :
    dictKeys (dictInsert d k v) = dictKeys d := by
  simp only [dictInsert, h, if_true, dictKeys, List.map_map]
  apply List.map_congr_left
  intro p _
  simp only [Function.comp_apply]
  by_cases hp : (p.1 == k) = true
  · have hpk : p.1 = k := by simpa [beq_iff_eq] using hp
    rw [if_pos hp]
    exact hpk.symm
  · have hpf : (p.1 == k) = false := Bool.eq_false_iff.mpr hp
    rw [if_neg (by simp [hpf])]

theorem dictKeys_insert_of_not_has {α : Type} (d : List (String × α)) (k : String) (v : α)
    (h : d.any (fun p => p.1 == k) = false) :
    dictKeys (dictInsert d k v) = dictKeys d ++ [k] := by
  simp [dictInsert, h, dictKeys]

theorem dictKeys_insert_nodup {α : Type} (d : List (String × α)) (k : String) (v : α)
    (h : (dictKeys d).Nodup) :
    (dictKeys (dictInsert d k v)).Nodup := by
  by_cases hh : d.any (fun p => p.1 == k) = true
  · rw [dictKeys_insert_of_has d k v hh]
    exact h
  · have hhf : (d.any fun p => p.1 == k) = false := Bool.eq_false_iff.mpr hh
    rw [dictKeys_insert_of_not_has d k v hhf]
    have hnm : k ∉ dictKeys d := by
      intro hc
      have hkt := (dictHas_eq_true_iff d k).mpr hc
      rw [dictHas] at hkt
      exact absurd hkt (by simp [hhf])
    rw [List.nodup_append]
    refine ⟨h, List.nodup_singleton k, ?_⟩
    intro a ha hak
    apply hnm
    have hak' : a = k := by simpa using hak
    exact hak' ▸ ha

theorem dictGet_update_not_mem {α : Type} (l : List (String × α)) (base : List (String × α))
    (k : String) (h : ∀ kv ∈ l, kv.1 ≠ k) :
    dictGet (dictUpdate base l) k = dictGet base k := by
  induction l generalizing base with
  | nil => rfl
  | cons kv t ih =>
    have hstep : dictUpdate base (kv :: t) = dictUpdate (dictInsert base kv.1 kv.2) t := rfl
    rw [hstep, ih _ (fun q hq => h q (List.mem_cons_of_mem kv hq)),
      dictGet_insert_ne base kv.1 k kv.2 (fun hc => h kv (List.mem_cons_self kv t) hc.symm)]

theorem dictGet_update_nodup {α : Type} (l : List (String × α)) (base : List (String × α))
    (k : String) (h : (dictKeys l).Nodup) :
    dictGet (dictUpdate base l) k = (dictGet l k).or (dictGet base k) := by
  induction l generalizing base with
  | nil => simp [dictUpdate, dictGet]
  | cons kv t ih =>
    obtain ⟨k0, v0⟩ := kv
    have hcons : (k0 :: dictKeys t).Nodup := h
    have hk0 : k0 ∉ dictKeys t := (List.nodup_cons.mp hcons).1
    have hnt : (dictKeys t).Nodup := (List.nodup_cons.mp hcons).2
    have hstep : dictUpdate base ((k0, v0) :: t) = dictUpdate (dictInsert base k0 v0) t := rfl
    rw [hstep]
    by_cases h0 : k0 = k
    · subst h0
      have hne : ∀ kv ∈ t, kv.1 ≠ k0 := by
        intro q hq hc
        exact hk0 (hc ▸ List.mem_map_of_mem (fun p => p.1) hq)
      rw [dictGet_update_not_mem t _ k0 hne, dictGet_insert_self, dictGet_cons]
      simp
    · rw [ih _ hnt, dictGet_insert_ne base k0 k v0 (fun hc => h0 hc.symm), dictGet_cons]
      have : (k0 == k) = false := by
        simp [beq_iff_eq]
        exact h0
      simp [this]

theorem dictHas_update {α : Type} (l : List (String × α)) (base : List (String × α))
    (k : String) :
    dictHas (dictUpdate base l) k = (dictHas base k || dictHas l k) := by
  induction l generalizing base with
  | nil => simp [dictUpdate, dictHas]
  | cons kv t ih =>
    obtain ⟨k0, v0⟩ := kv
    have hstep : dictUpdate base ((k0, v0) :: t) = dictUpdate (dictInsert base k0 v0) t := rfl
    rw [hstep, ih]
    by_cases h0 : k0 = k
    · subst h0
      rw [dictHas_insert_self]
      have hr : dictHas ((k0, v0) :: t) k0 = true := by
        simp [dictHas, List.any_cons]
      rw [hr]
      simp
    · rw [dictHas_insert_ne base k0 k v0 (fun hc => h0 hc.symm)]
      have h0f : (k0 == k) = false := beq_eq_false_iff_ne.mpr h0
      have hr : dictHas ((k0, v0) :: t) k = dictHas t k := by
        simp [dictHas, List.any_cons, h0f]
      rw [hr]

/-! ## Ordering lemmas -/

theorem charListLe_trans (a : List Char) : ∀ b c, charListLe a b = true →
    charListLe b c = true → charListLe a c = true := by
  induction a with
  | nil => intro b c _ _; rfl
  | cons x xs ih =>
    intro b c hab hbc
    cases b with
    | nil => simp [charListLe] at hab
    | cons y ys =>
      cases c with
      | nil => simp [charListLe] at hbc
      | cons z zs =>
        rw [charListLe] at hab hbc ⊢
        by_cases hxy : x = y
        · subst hxy
          rw [if_pos rfl] at hab
          by_cases hxz : x = z
          · subst hxz
            rw [if_pos rfl] at hbc ⊢
            exact ih ys zs hab hbc
          · rw [if_neg hxz] at hbc ⊢
            exact hbc
        · rw [if_neg hxy] at hab
          have hlt : x < y := of_decide_eq_true hab
          by_cases hyz : y = z
          · subst hyz
            rw [if_neg hxy]
            exact hab
          · rw [if_neg hyz] at hbc
            have hlt2 : y < z := of_decide_eq_true hbc
            have hxz : x < z := lt_trans hlt hlt2
            rw [if_neg (ne_of_lt hxz)]
            exact decide_eq_true hxz

theorem charListLe_total (a : List Char) : ∀ b,
    (charListLe a b || charListLe b a) = true := by
  induction a with
  | nil => intro b; simp [charListLe]
  | cons x xs ih =>
    intro b
    cases b with
    | nil => simp [charListLe]
    | cons y ys =>
      rw [charListLe, charListLe]
      by_cases hxy : x = y
      · subst hxy
        rw [if_pos rfl, if_pos rfl]
        exact ih ys
      · rw [if_neg hxy, if_neg (Ne.symm hxy)]
        rcases lt_or_gt_of_ne hxy with h | h
        · simp [decide_eq_true h]
        · simp [decide_eq_true h]

theorem citLe_trans (a b c : PyDict) (hab : citLe a b = true) (hbc : citLe b c = true) :
    citLe a c = true :=
  charListLe_trans _ _ _ hab hbc

theorem citLe_total (a b : PyDict) : (citLe a b || citLe b a) = true :=
  charListLe_total _ _

theorem length_needs_partition (l : List PyDict) :
    (l.filter (fun c => !getNeedsPayment c)).length +
      (l.filter (fun c => getNeedsPayment c)).length = l.length := by
  induction l with
  | nil => rfl
  | cons x t ih =>
    rw [List.filter_cons, List.filter_cons]
    by_cases hx : getNeedsPayment x = true
    · have h1 : ¬((!getNeedsPayment x) = true) := by rw [hx]; simp
      rw [if_neg h1, if_pos hx, List.length_cons, List.length_cons]
      omega
    · have hxf : getNeedsPayment x = false := Bool.eq_false_iff.mpr hx
      have h1 : (!getNeedsPayment x) = true := by rw [hxf]; rfl
      rw [if_pos h1, if_neg hx, List.length_cons, List.length_cons]
      omega

/-! ## Worker fan-out lemmas -/

theorem runWorkersFrom_getElem? (oracle : Nat → Except String StrDict) (rows : List RawRow) :
    ∀ i j, (runWorkersFrom oracle i rows)[j]? =
      rows[j]?.map (fun r => fetch_citation_details_worker r (oracle (i + j))) := by
  induction rows with
  | nil => intro i j; simp [runWorkersFrom]
  | cons r rs ih =>
    intro i j
    cases j with
    | zero =>
      rw [runWorkersFrom]
      simp
    | succ j =>
      rw [runWorkersFrom, List.getElem?_cons_succ, List.getElem?_cons_succ, ih (i + 1) j]
      have harith : i + 1 + j = i + (j + 1) := by omega
      rw [harith]

theorem runWorkers_getElem? (oracle : Nat → Except String StrDict) (rows : List RawRow)
    (j : Nat) :
    (runWorkers rows oracle)[j]? =
      rows[j]?.map (fun r => fetch_citation_details_worker r (oracle j)) := by
  rw [runWorkers, runWorkersFrom_getElem? oracle rows 0 j]
  simp

/-! ## Merge-phase lemmas -/

theorem mergePhase_counts (tag : String) (td : Option String) (collected : List PyDict) :
    (mergePhase tag td collected).total_citations =
      (mergePhase tag td collected).total_paid + (mergePhase tag td collected).total_open := by
  show (collected.mergeSort citLe).length =
    ((collected.mergeSort citLe).filter (fun c => !getNeedsPayment c)).length +
      ((collected.mergeSort citLe).filter (fun c => getNeedsPayment c)).length
  exact (length_needs_partition (collected.mergeSort citLe)).symm

theorem mergePhase_mem_sorted (tag : String) (td : Option String) (collected : List PyDict)
    (r : PyDict) (h : r ∈ collected) :
    r ∈ collected.mergeSort citLe :=
  ((List.mergeSort_perm collected citLe).mem_iff).mpr h

theorem mergePhase_partition (tag : String) (td : Option String) (collected : List PyDict)
    (r : PyDict) (h : r ∈ collected) :
    (getNeedsPayment r = true →
      r ∈ (mergePhase tag td collected).open_citations ∧
      r ∉ (mergePhase tag td collected).paid_citations) ∧
    (getNeedsPayment r = false →
      r ∈ (mergePhase tag td collected).paid_citations ∧
      r ∉ (mergePhase tag td collected).open_citations) := by
  have hs : r ∈ collected.mergeSort citLe := mergePhase_mem_sorted tag td collected r h
  constructor
  · intro hnp
    constructor
    · exact List.mem_filter.mpr ⟨hs, hnp⟩
    · intro hc
      have := (List.mem_filter.mp hc).2
      rw [hnp] at this
      simp at this
  · intro hnp
    constructor
    · exact List.mem_filter.mpr ⟨hs, by rw [hnp]; rfl⟩
    · intro hc
      have := (List.mem_filter.mp hc).2
      rw [hnp] at this
      simp at this

theorem mergePhase_paid_sorted (tag : String) (td : Option String) (collected : List PyDict) :
    List.Pairwise (fun a b => citLe a b = true) (mergePhase tag td collected).paid_citations := by
  have hs : List.Pairwise (fun a b => citLe a b = true) (collected.mergeSort citLe) :=
    List.sorted_mergeSort citLe_trans citLe_total collected
  exact List.Pairwise.sublist (List.filter_sublist _) hs

theorem mergePhase_open_sorted (tag : String) (td : Option String) (collected : List PyDict) :
    List.Pairwise (fun a b => citLe a b = true) (mergePhase tag td collected).open_citations := by
  have hs : List.Pairwise (fun a b => citLe a b = true) (collected.mergeSort citLe) :=
    List.sorted_mergeSort citLe_trans citLe_total collected
  exact List.Pairwise.sublist (List.filter_sublist _) hs

/-! ## Header-index lemmas -/

theorem lastIndexFrom_not_mem (k : String) : ∀ (hs : List String) (i d : Nat),
    k ∉ hs → lastIndexFrom k i hs d = d := by
  intro hs
  induction hs with
  | nil => intro i d _; rfl
  | cons h t ih =>
    intro i d hk
    have hne : (h == k) = false :=
      beq_eq_false_iff_ne.mpr (fun hc => hk (hc ▸ List.mem_cons_self h t))
    rw [lastIndexFrom, if_neg (by simp [hne])]
    exact ih (i + 1) d (fun hc => hk (List.mem_cons_of_mem h hc))

theorem lastIndexFrom_count_one (k : String) : ∀ (hs : List String) (i d : Nat),
    hs.count k = 1 → lastIndexFrom k i hs d = i + hs.indexOf k := by
  intro hs
  induction hs with
  | nil => intro i d hc; simp at hc
  | cons h t ih =>
    intro i d hc
    rw [lastIndexFrom]
    by_cases hh : (h == k) = true
    · have hck : t.count k = 0 := by
        rw [List.count_cons, if_pos hh] at hc
        omega
      have hnm : k ∉ t := List.count_eq_zero.mp hck
      rw [if_pos hh, lastIndexFrom_not_mem k t (i + 1) i hnm, List.indexOf_cons, hh]
      simp
    · have hhf : (h == k) = false := Bool.eq_false_iff.mpr hh
      have hct : t.count k = 1 := by
        rw [List.count_cons, if_neg hh] at hc
        omega
      rw [if_neg hh, ih (i + 1) d hct, List.indexOf_cons, hhf]
      simp only [Bool.cond_false]
      omega

theorem count_one_of_perm (lowered : List String) (h : lowered.Perm stdHeadersLower)
    (n : String) (hn : n ∈ stdHeadersLower) : lowered.count n = 1 := by
  rw [h.count_eq]
  fin_cases hn <;> rfl

theorem colIdxOf_perm (lowered : List String) (h : lowered.Perm stdHeadersLower) :
    colIdxOf lowered =
      { idxPlus := lowered.indexOf "more info"
        idxCit := lowered.indexOf "citation"
        idxDate := lowered.indexOf "date issued"
        idxStatus := lowered.indexOf "status"
        idxAmount := lowered.indexOf "amount due" } := by
  simp only [colIdxOf, lastIndexOfD, ColIdx.mk.injEq]
  refine ⟨?_, ?_, ?_, ?_, ?_⟩ <;>
    · rw [lastIndexFrom_count_one _ _ _ _ (count_one_of_perm lowered h _ (by decide))]
      omega

/-! ## Results-table locator lemmas -/

theorem find?_congr {α : Type} (l : List α) (p q : α → Bool) (h : ∀ x ∈ l, p x = q x) :
    l.find? p = l.find? q := by
  induction l with
  | nil => rfl
  | cons x t ih =>
    rw [List.find?_cons, List.find?_cons, h x (List.mem_cons_self x t),
      ih (fun y hy => h y (List.mem_cons_of_mem x hy))]

theorem rowTh_eq_nil (r : Tr) (h : ∀ c ∈ r.cells, c.isHeader = false) : rowTh r = [] := by
  rw [rowTh, List.filter_eq_nil_iff]
  intro c hc
  simp [h c hc]

theorem flatten_rowTh_nil : ∀ (rest : List Tr),
    (∀ r ∈ rest, ∀ c ∈ r.cells, c.isHeader = false) → (rest.map rowTh).flatten = [] := by
  intro rest
  induction rest with
  | nil => intro _; rfl
  | cons r rs ih =>
    intro h
    rw [List.map_cons, List.flatten_cons, rowTh_eq_nil r (h r (List.mem_cons_self r rs)),
      List.nil_append]
    exact ih (fun r2 h2 => h r2 (List.mem_cons_of_mem r h2))

theorem tableMatches_eq_headerRowMatch (t : HtmlTable)
    (h : ∀ r ∈ t.rows.tail, ∀ c ∈ r.cells, c.isHeader = false) :
    tableMatches t = headerRowMatch t := by
  obtain ⟨cls, rows⟩ := t
  cases rows with
  | nil => rfl
  | cons r0 rest =>
    have hr : ∀ r ∈ rest, ∀ c ∈ r.cells, c.isHeader = false := by
      simpa using h
    have hth : tableTh { cls := cls, rows := r0 :: rest } = rowTh r0 := by
      rw [tableTh, List.map_cons, List.flatten_cons, flatten_rowTh_nil rest hr,
        List.append_nil]
    have hRHS : headerRowMatch { cls := cls, rows := r0 :: rest } =
        neededHeaders.all (fun n =>
          ((rowTh r0).map (fun c => lowerStr c.text)).contains n) := rfl
    rw [tableMatches, tableHeadersLower, hth, hRHS]
    cases hdr : (rowTh r0).map (fun c => lowerStr c.text) with
    | nil => rfl
    | cons a l => rfl

theorem find_results_table_eq_spec (tables : List HtmlTable)
    (hwf : ∀ t ∈ tables, ∀ r ∈ t.rows.tail, ∀ c ∈ r.cells, c.isHeader = false) :
    find_results_table tables = tables.find? headerRowMatch := by
  rw [find_results_table]
  exact find?_congr tables _ _ (fun t ht => tableMatches_eq_headerRowMatch t (hwf t ht))

theorem indexOf_lt_length_of_mem {α : Type} [BEq α] [LawfulBEq α] (a : α) :
    ∀ (l : List α), a ∈ l → l.indexOf a < l.length := by
  intro l
  induction l with
  | nil => intro h; cases h
  | cons x t ih =>
    intro h
    rw [List.indexOf_cons]
    by_cases hx : (x == a) = true
    · rw [hx]
      simp
    · have hxf : (x == a) = false := Bool.eq_false_iff.mpr hx
      rw [hxf]
      simp only [Bool.cond_false, List.length_cons]
      have ha : a ∈ t := by
        rcases List.mem_cons.mp h with h1 | h1
        · exact absurd (beq_iff_eq.mpr h1.symm) hx
        · exact h1
      have := ih ha
      omega

theorem parseRow_spec (lowered : List String) (hperm : lowered.Perm stdHeadersLower) (tr : Tr)
    (hlen : 5 ≤ (rowTd tr).length)
    (hcit : cellTextAt (rowTd tr) (lowered.indexOf "citation") ≠ "") :
    parseRow (colIdxOf lowered) tr = some (specExtractRow lowered tr) := by
  have hci := colIdxOf_perm lowered hperm
  have e1 : (colIdxOf lowered).idxPlus = lowered.indexOf "more info" := by rw [hci]
  have e2 : (colIdxOf lowered).idxCit = lowered.indexOf "citation" := by rw [hci]
  have e3 : (colIdxOf lowered).idxDate = lowered.indexOf "date issued" := by rw [hci]
  have e4 : (colIdxOf lowered).idxStatus = lowered.indexOf "status" := by rw [hci]
  have e5 : (colIdxOf lowered).idxAmount = lowered.indexOf "amount due" := by rw [hci]
  rw [parseRow, e1, e2, e3, e4, e5]
  have hlen5 : lowered.length = 5 := by rw [hperm.length_eq]; rfl
  have hidx : ∀ n ∈ stdHeadersLower, lowered.indexOf n < 5 := by
    intro n hn
    have hlt := indexOf_lt_length_of_mem n lowered (hperm.mem_iff.mpr hn)
    omega
  have h1 := hidx "more info" (by decide)
  have h2 := hidx "citation" (by decide)
  have h3 := hidx "date issued" (by decide)
  have h4 := hidx "status" (by decide)
  have h5 := hidx "amount due" (by decide)
  have hmax : max (max (max (max (lowered.indexOf "amount due") (lowered.indexOf "status"))
      (lowered.indexOf "date issued")) (lowered.indexOf "citation"))
      (lowered.indexOf "more info") < 5 :=
    Nat.max_lt.mpr ⟨Nat.max_lt.mpr ⟨Nat.max_lt.mpr ⟨Nat.max_lt.mpr ⟨h5, h4⟩, h3⟩, h2⟩, h1⟩
  rw [if_neg (by omega), if_neg hcit, specExtractRow]

theorem mem_parse_main_rows_of_spec (cls : String) (tr0 : Tr) (rest : List Tr) (tr : Tr)
    (hperm : ((rowTh tr0).map (fun c => lowerStr c.text)).Perm stdHeadersLower)
    (htr : tr ∈ rest) (hlen : 5 ≤ (rowTd tr).length)
    (hcit : cellTextAt (rowTd tr)
      (((rowTh tr0).map (fun c => lowerStr c.text)).indexOf "citation") ≠ "") :
    specExtractRow ((rowTh tr0).map (fun c => lowerStr c.text)) tr ∈
      parse_main_rows { cls := cls, rows := tr0 :: rest } := by
  cases rest with
  | nil => cases htr
  | cons r1 rs =>
    show _ ∈ (r1 :: rs).filterMap (parseRow (colIdxOf _))
    exact List.mem_filterMap.mpr ⟨tr, htr, parseRow_spec _ hperm tr hlen hcit⟩

/-! ## Detail-parser lemmas -/

theorem table_append_ne (s k : String) (h : k.data.take 6 ≠ "table_".data) :
    ("table_" ++ s) ≠ k := by
  intro he
  apply h
  rw [← he]
  show ("table_".data ++ s.data).take 6 = "table_".data
  exact List.take_left "table_".data s.data

theorem knownField_take6 :
    ∀ fld ∈ id_mappings.map Prod.snd, fld.data.take 6 ≠ "table_".data := by decide

theorem dictGet_fallbackRowStep (d : StrDict) (r : Tr) (k : String)
    (hk : ∀ s, ("table_" ++ s) ≠ k) :
    dictGet (fallbackRowStep d r) k = dictGet d k := by
  obtain ⟨cells⟩ := r
  cases cells with
  | nil => rfl
  | cons c0 tl =>
    cases tl with
    | nil => rfl
    | cons c1 tl2 =>
      show dictGet (if c0.text ≠ "" ∧ c1.text ≠ "" then
        sInsert d ("table_" ++ cleanKey c0.text) c1.text else d) k = dictGet d k
      by_cases hne : c0.text ≠ "" ∧ c1.text ≠ ""
      · rw [if_pos hne]
        exact dictGet_insert_ne d _ k _ (fun hc => hk (cleanKey c0.text) hc.symm)
      · rw [if_neg hne]

theorem dictGet_foldl_rowStep (k : String) (hk : ∀ s, ("table_" ++ s) ≠ k) :
    ∀ (rows : List Tr) (d : StrDict),
      dictGet (rows.foldl fallbackRowStep d) k = dictGet d k := by
  intro rows
  induction rows with
  | nil => intro d; rfl
  | cons r rs ih =>
    intro d
    rw [List.foldl_cons, ih, dictGet_fallbackRowStep d r k hk]

theorem dictGet_foldl_tableStep (k : String) (hk : ∀ s, ("table_" ++ s) ≠ k) :
    ∀ (ts : List HtmlTable) (d : StrDict),
      dictGet (ts.foldl fallbackTableStep d) k = dictGet d k := by
  intro ts
  induction ts with
  | nil => intro d; rfl
  | cons t ts ih =>
    intro d
    rw [List.foldl_cons, ih, fallbackTableStep, dictGet_foldl_rowStep k hk]

theorem dictGet_fallbackScan (d0 : StrDict) (tables : List HtmlTable) (k : String)
    (hk : ∀ s, ("table_" ++ s) ≠ k) :
    dictGet (fallbackScan d0 tables) k = dictGet d0 k := by
  rw [fallbackScan, dictGet_foldl_tableStep k hk]

theorem dictGet_knownFold_not_mem (p : DetailPage) (k : String) :
    ∀ (l : List (String × String)) (d : StrDict), k ∉ l.map Prod.snd →
      dictGet (l.foldl (knownStep p) d) k = dictGet d k := by
  intro l
  induction l with
  | nil => intro d _; rfl
  | cons m t ih =>
    intro d hk
    rw [List.foldl_cons,
      ih _ (fun hc => hk (List.mem_cons_of_mem _ hc))]
    rw [knownStep]
    cases hf : p.spans.find? (fun s => s.1 == m.1) with
    | none => rfl
    | some sp =>
      refine dictGet_insert_ne d m.2 k sp.2 (fun hc => hk ?_)
      rw [hc]
      exact List.mem_cons_self _ _

theorem dictGet_knownFold_mem (p : DetailPage) (elemId fld : String)
    (sp : String × String) (hfind : p.spans.find? (fun s => s.1 == elemId) = some sp) :
    ∀ (l : List (String × String)) (d : StrDict), (l.map Prod.snd).Nodup →
      (elemId, fld) ∈ l → dictGet (l.foldl (knownStep p) d) fld = some sp.2 := by
  intro l
  induction l with
  | nil => intro d _ hm; cases hm
  | cons m t ih =>
    intro d hnd hm
    rw [List.map_cons] at hnd
    rcases List.mem_cons.mp hm with hme | hmt
    · subst hme
      rw [List.foldl_cons]
      have hnm : fld ∉ t.map Prod.snd := by
        have := (List.nodup_cons.mp hnd).1
        simpa using this
      rw [dictGet_knownFold_not_mem p fld t _ hnm, knownStep, hfind]
      exact dictGet_insert_self d fld sp.2
    · rw [List.foldl_cons]
      exact ih _ (List.nodup_cons.mp hnd).2 hmt

theorem sGet_parse_details_known (p : DetailPage) (elemId fld : String)
    (sp : String × String) (hmem : (elemId, fld) ∈ id_mappings)
    (hfind : p.spans.find? (fun s => s.1 == elemId) = some sp) :
    sGet (parse_citation_details p) fld = some sp.2 := by
  have hnd : (id_mappings.map Prod.snd).Nodup := by decide
  have htake : fld.data.take 6 ≠ "table_".data :=
    knownField_take6 fld (List.mem_map_of_mem Prod.snd hmem)
  show dictGet (parse_citation_details p) fld = some sp.2
  rw [parse_citation_details,
    dictGet_fallbackScan _ _ fld (fun s => table_append_ne s fld htake), knownFieldPass,
    dictGet_knownFold_mem p elemId fld sp hfind id_mappings [] hnd hmem]

/-! ## Worker lemmas -/

theorem cleanStep_keys_nodup (d : PyDict) (kv : String × String)
    (h : (dictKeys d).Nodup) : (dictKeys (cleanStep d kv)).Nodup := by
  rw [cleanStep]
  by_cases hp : "table_".data.isPrefixOf kv.1.data = true
  · rw [if_pos hp]
    exact dictKeys_insert_nodup d _ _ h
  · rw [if_neg hp]
    exact dictKeys_insert_nodup d _ _ h

theorem foldl_cleanStep_keys_nodup : ∀ (l : StrDict) (d : PyDict),
    (dictKeys d).Nodup → (dictKeys (l.foldl cleanStep d)).Nodup := by
  intro l
  induction l with
  | nil => intro d h; exact h
  | cons kv t ih =>
    intro d h
    rw [List.foldl_cons]
    exact ih _ (cleanStep_keys_nodup d kv h)

theorem cleanDetails_keys_nodup (details : StrDict) :
    (dictKeys (cleanDetails details)).Nodup := by
  rw [cleanDetails]
  exact foldl_cleanStep_keys_nodup details [] List.nodup_nil

theorem not_has_forall_ne {α : Type} (d : List (String × α)) (k : String)
    (h : dictHas d k = false) : ∀ kv ∈ d, kv.1 ≠ k := by
  intro kv hkv hc
  have hh : dictHas d k = true := by
    rw [dictHas, List.any_eq_true]
    exact ⟨kv, hkv, by rw [hc]; simp⟩
  rw [hh] at h
  cases h

theorem worker_ok_eq (row : RawRow) (details : StrDict) (hne : details.isEmpty = false) :
    fetch_citation_details_worker row (Except.ok details) =
      (if pyHas (dictUpdate (baseInfo row) (cleanDetails details)) "due_date" then
        dictUpdate (baseInfo row) (cleanDetails details)
      else
        pyInsert (pyInsert (dictUpdate (baseInfo row) (cleanDetails details))
          "due_date" (.str "Not available")) "due_date_estimated" (.bool false)) := by
  rw [fetch_citation_details_worker]
  rw [if_neg (by rw [hne]; simp)]

/-! ## Postback unfolding lemmas -/

theorem postbackLoop_step3 (tr : Nat → NetOutcome) : postbackLoop tr 0 3 =
    (match attemptResult (tr 0) with
     | Except.ok p => Except.ok p
     | Except.error e => if (2 : Nat) = 0 then Except.error e else postbackLoop tr 1 2) := rfl

theorem postbackLoop_step2 (tr : Nat → NetOutcome) : postbackLoop tr 1 2 =
    (match attemptResult (tr 1) with
     | Except.ok p => Except.ok p
     | Except.error e => if (1 : Nat) = 0 then Except.error e else postbackLoop tr 2 1) := rfl

theorem postbackLoop_step1 (tr : Nat → NetOutcome) : postbackLoop tr 2 1 =
    (match attemptResult (tr 2) with
     | Except.ok p => Except.ok p
     | Except.error e => if (0 : Nat) = 0 then Except.error e else postbackLoop tr 3 0) := rfl

/-! ## Claim C2 -/

/-- C2 counterexample: the claim says a successfully received non-2xx
response is never retried and its raise-on-bad-status error surfaces
immediately.  On the trace whose first attempt is an HTTP 500 and whose
second attempt succeeds, `postback` returns the second attempt's page:
the non-2xx response was retried (its `HTTPError` is a
`RequestException`, which the retry loop catches), and the error is not
surfaced. -/
theorem c2_counterexample :
    cexTraceHttp 0 = NetOutcome.httpError 500 ∧
    postback cexTraceHttp 3 = Except.ok 7 ∧
    postback cexTraceHttp 3 ≠ Except.error (NetErr.httpError 500) := by
  refine ⟨rfl, rfl, ?_⟩
  intro h
  exact Except.noConfusion h

/-- C2 (amended): the Postback Executor makes up to 3 attempts total
with a fixed sub-second backoff between attempts, and retries on request
timeout or ANY `requests`-level failure of a non-final attempt —
including the raise-on-bad-status `HTTPError` of a received non-2xx
response, which is a `RequestException` subclass; only the final
attempt's error is surfaced. -/
theorem c2_retry_policy (tr : Nat → NetOutcome) :
    postbackSleepMs < 1000 ∧
    (∀ p, tr 0 = NetOutcome.success p → postback tr 3 = Except.ok p) ∧
    (∀ e p, attemptResult (tr 0) = Except.error e → tr 1 = NetOutcome.success p →
      postback tr 3 = Except.ok p) ∧
    (∀ e e2 p, attemptResult (tr 0) = Except.error e →
      attemptResult (tr 1) = Except.error e2 →
      tr 2 = NetOutcome.success p → postback tr 3 = Except.ok p) ∧
    (∀ e e2 e3, attemptResult (tr 0) = Except.error e →
      attemptResult (tr 1) = Except.error e2 →
      attemptResult (tr 2) = Except.error e3 → postback tr 3 = Except.error e3) := by
  refine ⟨by decide, ?_, ?_, ?_, ?_⟩
  · intro p h
    have ha : attemptResult (tr 0) = Except.ok p := by rw [h]; rfl
    rw [postback, if_neg (by decide), postbackLoop_step3, ha]
  · intro e p h0 h1
    have ha : attemptResult (tr 1) = Except.ok p := by rw [h1]; rfl
    rw [postback, if_neg (by decide), postbackLoop_step3, h0]
    change (if (2 : Nat) = 0 then Except.error e else postbackLoop tr 1 2) = _
    rw [if_neg (by decide), postbackLoop_step2, ha]
  · intro e e2 p h0 h1 h2
    have ha : attemptResult (tr 2) = Except.ok p := by rw [h2]; rfl
    rw [postback, if_neg (by decide), postbackLoop_step3, h0]
    change (if (2 : Nat) = 0 then Except.error e else postbackLoop tr 1 2) = _
    rw [if_neg (by decide), postbackLoop_step2, h1]
    change (if (1 : Nat) = 0 then Except.error e2 else postbackLoop tr 2 1) = _
    rw [if_neg (by decide), postbackLoop_step1, ha]
  · intro e e2 e3 h0 h1 h2
    rw [postback, if_neg (by decide), postbackLoop_step3, h0]
    change (if (2 : Nat) = 0 then Except.error e else postbackLoop tr 1 2) = _
    rw [if_neg (by decide), postbackLoop_step2, h1]
    change (if (1 : Nat) = 0 then Except.error e2 else postbackLoop tr 2 1) = _
    rw [if_neg (by decide), postbackLoop_step1, h2]
    change (if (0 : Nat) = 0 then Except.error e3 else postbackLoop tr 3 0) = _
    rw [if_pos rfl]

/-- C2 witness: the retry policy applied to the all-timeouts trace
surfaces the final timeout after the three attempts. -/
theorem c2_retry_policy_witness :
    postback traceAllTimeout 3 = Except.error NetErr.timeout ∧ postbackSleepMs < 1000 :=
  ⟨(c2_retry_policy traceAllTimeout).2.2.2.2 NetErr.timeout NetErr.timeout NetErr.timeout
      rfl rfl rfl,
   (c2_retry_policy traceAllTimeout).1⟩

/-! ## Claim C3 -/

/-- C3 counterexample: the claim says a timeout during the initial GET
is retried up to 3 attempts before surfacing.  On the trace that times
out once and then succeeds, the pipeline's search phase surfaces the
timeout immediately (it issues the GET once, directly), although the
3-attempt `postback` retrier run on the same trace would have
succeeded. -/
theorem c3_counterexample :
    cexTraces.initialGet 0 = NetOutcome.timeout ∧
    searchPhaseNet cexTraces = Except.error NetErr.timeout ∧
    postback cexTraces.initialGet 3 = Except.ok 1 :=
  ⟨rfl, rfl, rfl⟩

/-- C3 (amended): the pipeline's own network calls — the initial GET,
the tag-search POST, and each per-citation detail POST — are issued once
through direct session calls and are not retried: each call consults
only the first outcome of its trace, and a timeout or connection failure
of that single attempt is surfaced directly to the calling pipeline
step.  The 3-attempt retry loop exists only in the `postback` helper,
which the pipeline does not use for these calls. -/
theorem c3_no_retry (tr : NetTraces) :
    (searchPhaseNet tr = searchPhaseNet
      { initialGet := fun _ => tr.initialGet 0
        searchPost := fun _ => tr.searchPost 0
        detailPost := tr.detailPost }) ∧
    (∀ e, attemptResult (tr.initialGet 0) = Except.error e →
      searchPhaseNet tr = Except.error e) ∧
    (∀ p e, tr.initialGet 0 = NetOutcome.success p →
      attemptResult (tr.searchPost 0) = Except.error e →
      searchPhaseNet tr = Except.error e) ∧
    (∀ c e, attemptResult (tr.detailPost c 0) = Except.error e →
      detailPostNet (tr.detailPost c) = Except.error e) := by
  refine ⟨rfl, ?_, ?_, ?_⟩
  · intro e h
    rw [searchPhaseNet, directCall, h]
  · intro p e hg hp
    rw [searchPhaseNet, directCall, hg]
    change (match directCall (tr.searchPost 0) with
      | Except.error e => Except.error e
      | Except.ok p2 => Except.ok (p, p2)) = _
    rw [directCall, hp]
  · intro c e h
    rw [detailPostNet, directCall, h]

/-- C3 witness: a timeout on the single GET attempt, and on the single
detail POST attempt, surfaces directly. -/
theorem c3_no_retry_witness :
    searchPhaseNet witTracesTimeout = Except.error NetErr.timeout ∧
    detailPostNet (witTracesTimeout.detailPost "X") = Except.error NetErr.timeout := by
  constructor
  · exact (c3_no_retry witTracesTimeout).2.1 NetErr.timeout rfl
  · exact (c3_no_retry witTracesTimeout).2.2.2 "X" NetErr.timeout rfl

/-! ## Claim C9 -/

/-- C9: for every parsed page each of the three returned hidden-state
fields is present in the extractor's output and equals exactly the value
attribute of the first input element carrying that identifier, and
equals the empty string whenever no such element exists or the element
has no value attribute. -/
theorem c9_hidden_fields (inputs : List InputEl) (i : String)
    (hi : i ∈ ["__VIEWSTATE", "__EVENTVALIDATION", "__VIEWSTATEGENERATOR"]) :
    sGet (extract_hidden_fields inputs) i = some (hiddenVal inputs i) ∧
    (findInputById inputs i = Option.none → hiddenVal inputs i = "") ∧
    (∀ el, findInputById inputs i = some el → el.value = Option.none →
      hiddenVal inputs i = "") ∧
    (∀ el v, findInputById inputs i = some el → el.value = some v →
      hiddenVal inputs i = v) := by
  refine ⟨?_, ?_, ?_, ?_⟩
  · fin_cases hi <;> rfl
  · intro h
    simp only [hiddenVal, h]
  · intro el h hv
    simp only [hiddenVal, h, hv]
  · intro el v h hv
    simp only [hiddenVal, h, hv]

/-- C9 witness: on a concrete page the extractor returns the present
value, and empty strings for a value-less element and for an absent
element. -/
theorem c9_hidden_fields_witness :
    sGet (extract_hidden_fields witInputs) "__VIEWSTATE" =
      some (hiddenVal witInputs "__VIEWSTATE") ∧
    hiddenVal witInputs "__VIEWSTATE" = "vs1" ∧
    hiddenVal witInputs "__VIEWSTATEGENERATOR" = "" ∧
    hiddenVal witInputs "__EVENTVALIDATION" = "" := by
  refine ⟨(c9_hidden_fields witInputs _ (by decide)).1, ?_, ?_, ?_⟩
  · exact (c9_hidden_fields witInputs "__VIEWSTATE" (by decide)).2.2.2
      { id := some "__VIEWSTATE", value := some "vs1" } "vs1" rfl rfl
  · exact (c9_hidden_fields witInputs "__VIEWSTATEGENERATOR" (by decide)).2.2.1
      { id := some "__VIEWSTATEGENERATOR", value := Option.none } rfl rfl
  · exact (c9_hidden_fields witInputs "__EVENTVALIDATION" (by decide)).2.1 rfl

/-! ## Claim C7 -/

/-- C7 counterexample: the claim says the EMPTY outcome (table present,
zero data rows) carries `total_due: null` and the NO_RESULTS outcome
carries a non-empty message.  On a header-only results page whose
total-due label reads "$5.00" the EMPTY outcome carries that string, not
null; and on a table-less page whose error label is present but empty
the NO_RESULTS message is the empty string. -/
theorem c7_counterexample :
    (fetch_all_from_results "ABC123" pgHeaderOnly oracleFailAll).total_citations = 0 ∧
    (fetch_all_from_results "ABC123" pgHeaderOnly oracleFailAll).message = Option.none ∧
    (fetch_all_from_results "ABC123" pgHeaderOnly oracleFailAll).total_due = some "$5.00" ∧
    (fetch_all_from_results "ABC123" pgHeaderOnly oracleFailAll).total_due ≠ Option.none ∧
    (fetch_all_from_results "ABC123" pgNoTable oracleFailAll).message = some "" := by
  exact ⟨rfl, rfl, rfl, fun h => Option.noConfusion h, rfl⟩

/-- C7 (amended): a located table with zero parsed rows yields the
message-free EMPTY outcome whose summary is all zeroes and whose
`total_due` is taken verbatim from the page's total-due label (null only
when that label is absent); an absent table yields the NO_RESULTS
outcome with the all-zero summary, `total_due` null, and a `message`
taken from the page's error label when present (else the generic
fallback), so the two outcomes differ in the presence of `message`. -/
theorem c7_outcomes (tag : String) (page : ResultsPage)
    (oracle : Nat → Except String StrDict) :
    (∀ t, find_results_table page.tables = some t → parse_main_rows t = [] →
      fetch_all_from_results tag page oracle =
        { tag_number := normTag tag, total_citations := 0, total_paid := 0, total_open := 0,
          total_due := page.totalDueLabel, paid_citations := [], open_citations := [],
          message := Option.none }) ∧
    (find_results_table page.tables = Option.none →
      fetch_all_from_results tag page oracle =
        { tag_number := normTag tag, total_citations := 0, total_paid := 0, total_open := 0,
          total_due := Option.none, paid_citations := [], open_citations := [],
          message := some (page.errorLabel.getD noResultsFallbackMsg) } ∧
      (fetch_all_from_results tag page oracle).message ≠ Option.none) := by
  constructor
  · intro t ht hrows
    simp only [fetch_all_from_results, ht, hrows, List.length_nil]
    rw [if_pos trivial]
  · intro hnone
    constructor
    · simp only [fetch_all_from_results, hnone]
      cases hl : page.errorLabel with
      | none => rfl
      | some m => rfl
    · simp only [fetch_all_from_results, hnone]
      intro h
      exact Option.noConfusion h

/-- C7 witness: the two branches of the amended statement instantiated
on concrete pages. -/
theorem c7_outcomes_witness :
    fetch_all_from_results "ABC123" pgHeaderOnly oracleFailAll =
      { tag_number := "ABC123", total_citations := 0, total_paid := 0, total_open := 0,
        total_due := some "$5.00", paid_citations := [], open_citations := [],
        message := Option.none } ∧
    (fetch_all_from_results "ABC123" pgNoTable oracleFailAll).message ≠ Option.none := by
  constructor
  · exact (c7_outcomes "ABC123" pgHeaderOnly oracleFailAll).1 headerOnlyTable rfl rfl
  · exact ((c7_outcomes "ABC123" pgNoTable oracleFailAll).2 rfl).2

/-! ## Claim C10 -/

/-- C10: a successful detail fetch whose parsed mapping is empty yields
a record holding exactly the four summary fields plus the two derived
payment fields — no due-date key and no placeholder at all; the
"Not available" placeholder appears exactly when the mapping is
non-empty but lacks a due-date key (together with the estimation flag),
or when the fetch fails; a present due-date key passes through. -/
theorem c10_due_date_placeholder (row : RawRow) (details : StrDict) (e : String) :
    (pyKeys (fetch_citation_details_worker row (Except.ok [])) =
      ["Citation", "Date Issued", "Status", "Amount Due", "needs_payment",
       "payment_required"] ∧
     pyHas (fetch_citation_details_worker row (Except.ok [])) "due_date" = false ∧
     pyHas (fetch_citation_details_worker row (Except.ok [])) "due_date_estimated" = false) ∧
    (details ≠ [] → pyHas (cleanDetails details) "due_date" = false →
      pyGet (fetch_citation_details_worker row (Except.ok details)) "due_date" =
        some (.str "Not available") ∧
      pyGet (fetch_citation_details_worker row (Except.ok details)) "due_date_estimated" =
        some (.bool false)) ∧
    (∀ w, details ≠ [] → pyGet (cleanDetails details) "due_date" = some w →
      pyGet (fetch_citation_details_worker row (Except.ok details)) "due_date" = some w) ∧
    pyGet (fetch_citation_details_worker row (Except.error e)) "due_date" =
      some (.str "Not available") := by
  refine ⟨⟨rfl, rfl, rfl⟩, ?_, ?_, rfl⟩
  · intro hne hhas
    have hneb : details.isEmpty = false := by
      cases details with
      | nil => exact absurd rfl hne
      | cons a t => rfl
    rw [worker_ok_eq row details hneb]
    have hbase : dictHas (baseInfo row) "due_date" = false := rfl
    have hhas2 : dictHas (cleanDetails details) "due_date" = false := hhas
    have hinfo : pyHas (dictUpdate (baseInfo row) (cleanDetails details)) "due_date" = false := by
      show dictHas (dictUpdate (baseInfo row) (cleanDetails details)) "due_date" = false
      rw [dictHas_update, hbase, hhas2]
      rfl
    rw [if_neg (by rw [hinfo]; simp)]
    constructor
    · show dictGet (dictInsert (dictInsert (dictUpdate (baseInfo row) (cleanDetails details))
        "due_date" (PyVal.str "Not available")) "due_date_estimated" (PyVal.bool false))
        "due_date" = some (PyVal.str "Not available")
      rw [dictGet_insert_ne _ _ _ _ (by decide : ("due_date" : String) ≠ "due_date_estimated"),
        dictGet_insert_self]
    · show dictGet (dictInsert (dictInsert (dictUpdate (baseInfo row) (cleanDetails details))
        "due_date" (PyVal.str "Not available")) "due_date_estimated" (PyVal.bool false))
        "due_date_estimated" = some (PyVal.bool false)
      rw [dictGet_insert_self]
  · intro w hne hget
    have hneb : details.isEmpty = false := by
      cases details with
      | nil => exact absurd rfl hne
      | cons a t => rfl
    rw [worker_ok_eq row details hneb]
    have hget2 : dictGet (cleanDetails details) "due_date" = some w := hget
    have hup : pyGet (dictUpdate (baseInfo row) (cleanDetails details)) "due_date" = some w := by
      show dictGet (dictUpdate (baseInfo row) (cleanDetails details)) "due_date" = some w
      rw [dictGet_update_nodup _ _ _ (cleanDetails_keys_nodup details), hget2]
      rfl
    have hhas3 : pyHas (dictUpdate (baseInfo row) (cleanDetails details)) "due_date" = true := by
      show dictHas (dictUpdate (baseInfo row) (cleanDetails details)) "due_date" = true
      rw [dictHas_eq_isSome]
      rw [show dictGet (dictUpdate (baseInfo row) (cleanDetails details)) "due_date" =
        some w from hup]
      rfl
    rw [if_pos hhas3]
    exact hup

/-- C10 witness: the empty-mapping branch and the placeholder branch
instantiated on concrete inputs. -/
theorem c10_due_date_placeholder_witness :
    pyKeys (fetch_citation_details_worker rowClosed (Except.ok [])) =
      ["Citation", "Date Issued", "Status", "Amount Due", "needs_payment",
       "payment_required"] ∧
    pyGet (fetch_citation_details_worker rowClosed
      (Except.ok [("table_issuing_officer", "Badge 7")])) "due_date" =
      some (.str "Not available") ∧
    pyGet (fetch_citation_details_worker rowClosed
      (Except.ok [("due_date", "03/04/2024")])) "due_date" = some (.str "03/04/2024") := by
  refine ⟨(c10_due_date_placeholder rowClosed [] "").1.1, ?_, ?_⟩
  · exact ((c10_due_date_placeholder rowClosed [("table_issuing_officer", "Badge 7")] "").2.1
      (by decide) (by decide)).1
  · exact (c10_due_date_placeholder rowClosed [("due_date", "03/04/2024")] "").2.2.1
      (.str "03/04/2024") (by decide) (by decide)

/-! ## Claim C5 -/

/-- C5 counterexample: the claim quantifies over every produced record,
but a successful detail fetch whose fallback table carries a row
labelled "Needs Payment" overwrites the derived field after the worker
strips the `table_` prefix: on a CLOSED citation the final record's
`needs_payment` is the string "yes" (truthy) instead of the boolean
derived from the summary status. -/
theorem c5_counterexample :
    rowClosed.status ≠ "OPEN" ∧
    parse_citation_details dpNeeds = [("table_needs_payment", "yes")] ∧
    pyGet (fetch_citation_details_worker rowClosed
        (Except.ok (parse_citation_details dpNeeds))) "needs_payment" =
      some (.str "yes") ∧
    pyGet (fetch_citation_details_worker rowClosed
        (Except.ok (parse_citation_details dpNeeds))) "needs_payment" ≠
      some (.bool (rowClosed.status == "OPEN")) ∧
    pyTruthy (.str "yes") = true := by
  refine ⟨by decide, by decide, by decide, by decide, rfl⟩

/-- C5 (amended): for every record whose fetched detail mapping puts no
key on the two derived field names after prefix stripping — in
particular for every contained failure — `needs_payment` is the boolean
`status == "OPEN"` (true exactly when the summary status is the literal
"OPEN") and `payment_required` is the summary amount-due when open and
"$0.00" otherwise; a colliding fallback key overwrites these derived
fields, as the counterexample shows. -/
theorem c5_needs_payment (row : RawRow) (fetched : Except String StrDict)
    (h : detailNoDerivedCollision fetched) :
    pyGet (fetch_citation_details_worker row fetched) "needs_payment" =
      some (.bool (row.status == "OPEN")) ∧
    pyGet (fetch_citation_details_worker row fetched) "payment_required" =
      some (.str (if row.status == "OPEN" then row.amountDue else "$0.00")) ∧
    ((row.status == "OPEN") = true ↔ row.status = "OPEN") := by
  cases fetched with
  | error e => exact ⟨rfl, rfl, beq_iff_eq⟩
  | ok details =>
    obtain ⟨h1, h2⟩ := h
    have h1' : dictHas (cleanDetails details) "needs_payment" = false := h1
    have h2' : dictHas (cleanDetails details) "payment_required" = false := h2
    refine ⟨?_, ?_, beq_iff_eq⟩
    · by_cases hd : details.isEmpty = true
      · rw [fetch_citation_details_worker, if_pos hd]
        rfl
      · have hdf : details.isEmpty = false := Bool.eq_false_iff.mpr hd
        rw [worker_ok_eq row details hdf]
        have hne : ∀ kv ∈ cleanDetails details, kv.1 ≠ "needs_payment" :=
          not_has_forall_ne _ _ h1'
        have hget : dictGet (dictUpdate (baseInfo row) (cleanDetails details))
            "needs_payment" = dictGet (baseInfo row) "needs_payment" :=
          dictGet_update_not_mem _ _ _ hne
        by_cases hh : pyHas (dictUpdate (baseInfo row) (cleanDetails details))
            "due_date" = true
        · rw [if_pos hh]
          show dictGet (dictUpdate (baseInfo row) (cleanDetails details))
            "needs_payment" = some (PyVal.bool (row.status == "OPEN"))
          rw [hget]
          rfl
        · rw [if_neg hh]
          show dictGet (dictInsert (dictInsert
            (dictUpdate (baseInfo row) (cleanDetails details)) "due_date"
            (PyVal.str "Not available")) "due_date_estimated" (PyVal.bool false))
            "needs_payment" = some (PyVal.bool (row.status == "OPEN"))
          rw [dictGet_insert_ne _ _ _ _
              (by decide : ("needs_payment" : String) ≠ "due_date_estimated"),
            dictGet_insert_ne _ _ _ _
              (by decide : ("needs_payment" : String) ≠ "due_date"), hget]
          rfl
    · by_cases hd : details.isEmpty = true
      · rw [fetch_citation_details_worker, if_pos hd]
        rfl
      · have hdf : details.isEmpty = false := Bool.eq_false_iff.mpr hd
        rw [worker_ok_eq row details hdf]
        have hne : ∀ kv ∈ cleanDetails details, kv.1 ≠ "payment_required" :=
          not_has_forall_ne _ _ h2'
        have hget : dictGet (dictUpdate (baseInfo row) (cleanDetails details))
            "payment_required" = dictGet (baseInfo row) "payment_required" :=
          dictGet_update_not_mem _ _ _ hne
        by_cases hh : pyHas (dictUpdate (baseInfo row) (cleanDetails details))
            "due_date" = true
        · rw [if_pos hh]
          show dictGet (dictUpdate (baseInfo row) (cleanDetails details))
            "payment_required" =
            some (PyVal.str (if row.status == "OPEN" then row.amountDue else "$0.00"))
          rw [hget]
          rfl
        · rw [if_neg hh]
          show dictGet (dictInsert (dictInsert
            (dictUpdate (baseInfo row) (cleanDetails details)) "due_date"
            (PyVal.str "Not available")) "due_date_estimated" (PyVal.bool false))
            "payment_required" =
            some (PyVal.str (if row.status == "OPEN" then row.amountDue else "$0.00"))
          rw [dictGet_insert_ne _ _ _ _
              (by decide : ("payment_required" : String) ≠ "due_date_estimated"),
            dictGet_insert_ne _ _ _ _
              (by decide : ("payment_required" : String) ≠ "due_date"), hget]
          rfl

/-- C5 witness: the derived fields on a failure record of an OPEN
citation and on a collision-free success record of a CLOSED citation. -/
theorem c5_needs_payment_witness :
    pyGet (fetch_citation_details_worker rowOpen (Except.error "boom")) "needs_payment" =
      some (.bool true) ∧
    pyGet (fetch_citation_details_worker rowOpen (Except.error "boom")) "payment_required" =
      some (.str "$44.00") ∧
    pyGet (fetch_citation_details_worker rowClosed
        (Except.ok (parse_citation_details dpPlain))) "needs_payment" =
      some (.bool false) := by
  refine ⟨?_, ?_, ?_⟩
  · exact (c5_needs_payment rowOpen (Except.error "boom") trivial).1
  · exact (c5_needs_payment rowOpen (Except.error "boom") trivial).2.1
  · exact (c5_needs_payment rowClosed (Except.ok (parse_citation_details dpPlain))
      (by constructor <;> decide)).1

/-! ## Claim C8 -/

/-- C8 counterexample: inside the parsed detail mapping the fallback key
keeps its `table_` prefix and the known-identifier value survives, but
the claim speaks of the resulting citation record: there the worker
strips the prefix and the fallback row labelled "Citation Number"
overwrites the known `lb_Citation` value. -/
theorem c8_counterexample :
    sGet (parse_citation_details dpCitNum) "citation_number" = some "A1" ∧
    sGet (parse_citation_details dpCitNum) "table_citation_number" = some "B2" ∧
    pyGet (fetch_citation_details_worker rowClosed
        (Except.ok (parse_citation_details dpCitNum))) "citation_number" =
      some (.str "B2") ∧
    pyGet (fetch_citation_details_worker rowClosed
        (Except.ok (parse_citation_details dpCitNum))) "citation_number" ≠
      some (.str "A1") := by
  refine ⟨by decide, by decide, by decide, by decide⟩

/-- C8 (amended): within `parse_citation_details` the known-identifier
fields always take precedence: every fallback entry is stored under a
`table_`-prefixed key, the fallback scan leaves every key that is not
`table_`-prefixed untouched, and each known field's value equals the
matched span's text.  The precedence does NOT survive the worker's
record assembly: there the `table_` prefix is stripped and a fallback
key colliding with a known field name overwrites it (see the
counterexample). -/
theorem c8_known_field_precedence :
    (∀ (p : DetailPage) (elemId fld : String) (sp : String × String),
      (elemId, fld) ∈ id_mappings →
      p.spans.find? (fun s => s.1 == elemId) = some sp →
      sGet (parse_citation_details p) fld = some sp.2) ∧
    (∀ (d0 : StrDict) (tables : List HtmlTable) (k : String),
      (∀ s, ("table_" ++ s) ≠ k) →
      sGet (fallbackScan d0 tables) k = sGet d0 k) :=
  ⟨fun p elemId fld sp hm hf => sGet_parse_details_known p elemId fld sp hm hf,
   fun d0 tables k hk => dictGet_fallbackScan d0 tables k hk⟩

/-- C8 witness: on a concrete detail page the known `lb_duedate` span
value survives the fallback scan into the parsed mapping. -/
theorem c8_known_field_precedence_witness :
    sGet (parse_citation_details dpPlain) "due_date" = some "03/04/2024" := by
  exact c8_known_field_precedence.1 dpPlain "lb_duedate" "due_date"
    ("lb_duedate", "03/04/2024") (by decide) (by decide)

/-! ## Claim C1 -/

/-- C1: a per-citation detail fetch that raises with a non-empty
description is converted, at the worker boundary, into a record that
still carries the four summary fields, `needs_payment` derived from the
summary status, the "Not available" due-date placeholder, and the
non-empty error description; the record occupies its task's slot of the
fan-out output, lands in one of the two partitions of every merged
result built from any completion order, and the record of every other
task depends only on that task's own fetch outcome. -/
theorem c1_failure_contained (rows : List RawRow) (oracle : Nat → Except String StrDict)
    (i : Nat) (r : RawRow) (e : String)
    (hi : rows[i]? = some r) (ho : oracle i = Except.error e) (he : e ≠ "") :
    ((runWorkers rows oracle)[i]? =
      some (fetch_citation_details_worker r (Except.error e))) ∧
    pyGet (fetch_citation_details_worker r (Except.error e)) "Citation" =
      some (.str r.citation) ∧
    pyGet (fetch_citation_details_worker r (Except.error e)) "Date Issued" =
      some (.str r.dateIssued) ∧
    pyGet (fetch_citation_details_worker r (Except.error e)) "Status" =
      some (.str r.status) ∧
    pyGet (fetch_citation_details_worker r (Except.error e)) "Amount Due" =
      some (.str r.amountDue) ∧
    pyGet (fetch_citation_details_worker r (Except.error e)) "needs_payment" =
      some (.bool (r.status == "OPEN")) ∧
    pyGet (fetch_citation_details_worker r (Except.error e)) "due_date" =
      some (.str "Not available") ∧
    (pyGet (fetch_citation_details_worker r (Except.error e)) "error" =
      some (.str e) ∧ e ≠ "") ∧
    (∀ tag td collected, collected.Perm (runWorkers rows oracle) →
      fetch_citation_details_worker r (Except.error e) ∈
        (mergePhase tag td collected).paid_citations ∨
      fetch_citation_details_worker r (Except.error e) ∈
        (mergePhase tag td collected).open_citations) ∧
    (∀ (oracle2 : Nat → Except String StrDict) (j : Nat), oracle2 j = oracle j →
      (runWorkers rows oracle2)[j]? = (runWorkers rows oracle)[j]?) := by
  have hslot : (runWorkers rows oracle)[i]? =
      some (fetch_citation_details_worker r (Except.error e)) := by
    simp only [runWorkers_getElem?, hi, ho]
    rfl
  refine ⟨hslot, rfl, rfl, rfl, rfl, rfl, rfl, ⟨rfl, he⟩, ?_, ?_⟩
  · intro tag td collected hperm
    have hmem : fetch_citation_details_worker r (Except.error e) ∈ runWorkers rows oracle :=
      List.mem_iff_getElem?.mpr ⟨i, hslot⟩
    have hc : fetch_citation_details_worker r (Except.error e) ∈ collected :=
      hperm.mem_iff.mpr hmem
    by_cases hb : getNeedsPayment (fetch_citation_details_worker r (Except.error e)) = true
    · exact Or.inr ((mergePhase_partition tag td collected _ hc).1 hb).1
    · exact Or.inl ((mergePhase_partition tag td collected _ hc).2
        (Bool.eq_false_iff.mpr hb)).1
  · intro oracle2 j h2
    simp only [runWorkers_getElem?, h2]

/-- C1 witness: the containment facts instantiated on a two-row fan-out
whose first task fails. -/
theorem c1_failure_contained_witness :
    (runWorkers [rowClosed, rowOpen] oracleFailFirst)[0]? =
      some (fetch_citation_details_worker rowClosed (Except.error "boom")) ∧
    pyGet (fetch_citation_details_worker rowClosed (Except.error "boom")) "error" =
      some (.str "boom") ∧
    (fetch_citation_details_worker rowClosed (Except.error "boom") ∈
      (mergePhase "abc" Option.none
        (runWorkers [rowClosed, rowOpen] oracleFailFirst)).paid_citations ∨
     fetch_citation_details_worker rowClosed (Except.error "boom") ∈
      (mergePhase "abc" Option.none
        (runWorkers [rowClosed, rowOpen] oracleFailFirst)).open_citations) := by
  have h := c1_failure_contained [rowClosed, rowOpen] oracleFailFirst 0 rowClosed "boom"
    rfl rfl (by decide)
  exact ⟨h.1, h.2.2.2.2.2.2.2.1.1,
    h.2.2.2.2.2.2.2.2.1 "abc" Option.none _ (List.Perm.refl _)⟩

/-! ## Claim C4 -/

/-- C4: for every merged result built from at least one collected
record, `total_citations` equals `total_paid` plus `total_open` exactly;
every collected record lands in exactly the partition selected by its
`needs_payment` value; and each partition is ordered by citation id
ascending (code-point lexicographic on the "Citation" key). -/
theorem c4_merge_invariants (tag : String) (td : Option String) (collected : List PyDict)
    (hne : collected ≠ []) :
    ((mergePhase tag td collected).total_citations =
      (mergePhase tag td collected).total_paid + (mergePhase tag td collected).total_open) ∧
    (∀ r ∈ collected,
      (getNeedsPayment r = true → r ∈ (mergePhase tag td collected).open_citations ∧
        r ∉ (mergePhase tag td collected).paid_citations) ∧
      (getNeedsPayment r = false → r ∈ (mergePhase tag td collected).paid_citations ∧
        r ∉ (mergePhase tag td collected).open_citations)) ∧
    List.Pairwise (fun a b => citLe a b = true) (mergePhase tag td collected).paid_citations ∧
    List.Pairwise (fun a b => citLe a b = true) (mergePhase tag td collected).open_citations :=
  ⟨mergePhase_counts tag td collected,
   fun r hr => mergePhase_partition tag td collected r hr,
   mergePhase_paid_sorted tag td collected,
   mergePhase_open_sorted tag td collected⟩

/-- C4 witness: the invariants instantiated on a concrete two-record
collection with one open and one closed citation. -/
theorem c4_merge_invariants_witness :
    ((mergePhase "abc" Option.none [baseInfo rowOpen, baseInfo rowClosed]).total_citations =
      (mergePhase "abc" Option.none [baseInfo rowOpen, baseInfo rowClosed]).total_paid +
      (mergePhase "abc" Option.none [baseInfo rowOpen, baseInfo rowClosed]).total_open) ∧
    baseInfo rowOpen ∈
      (mergePhase "abc" Option.none [baseInfo rowOpen, baseInfo rowClosed]).open_citations ∧
    baseInfo rowClosed ∈
      (mergePhase "abc" Option.none [baseInfo rowOpen, baseInfo rowClosed]).paid_citations := by
  have h := c4_merge_invariants "abc" Option.none [baseInfo rowOpen, baseInfo rowClosed]
    (List.cons_ne_nil _ _)
  refine ⟨h.1, ?_, ?_⟩
  · exact ((h.2.1 (baseInfo rowOpen) (List.mem_cons_self _ _)).1 (by decide)).1
  · exact ((h.2.1 (baseInfo rowClosed)
      (List.mem_cons_of_mem _ (List.mem_cons_self _ _))).2 (by decide)).1

/-! ## Claim C6 -/

/-- C6: on pages whose tables keep their header cells in the header
row (the first row), the locator returns exactly the first table whose
header row's lowercased text contains the required header set, or none;
and for any header row that is a permutation of the five column names,
every sufficiently wide data row with a non-empty citation cell is
parsed with each semantic field read from the column at the position of
its own header name — index derivation is header-driven, not
position-driven. -/
theorem c6_header_driven :
    (∀ (tables : List HtmlTable),
      (∀ t ∈ tables, ∀ r ∈ t.rows.tail, ∀ c ∈ r.cells, c.isHeader = false) →
      find_results_table tables = tables.find? headerRowMatch) ∧
    (∀ (cls : String) (tr0 : Tr) (rest : List Tr) (tr : Tr),
      ((rowTh tr0).map (fun c => lowerStr c.text)).Perm stdHeadersLower →
      tr ∈ rest → 5 ≤ (rowTd tr).length →
      cellTextAt (rowTd tr)
        (((rowTh tr0).map (fun c => lowerStr c.text)).indexOf "citation") ≠ "" →
      specExtractRow ((rowTh tr0).map (fun c => lowerStr c.text)) tr ∈
        parse_main_rows { cls := cls, rows := tr0 :: rest }) :=
  ⟨find_results_table_eq_spec,
   fun cls tr0 rest tr hperm htr hlen hcit =>
     mem_parse_main_rows_of_spec cls tr0 rest tr hperm htr hlen hcit⟩

/-- C6 witness: the specification's permuted header order
`[More Info, Citation, Status, Date Issued, Amount Due]` on a concrete
table: the locator agrees with the header-row criterion and the data
row's fields are extracted from the correct columns. -/
theorem c6_header_driven_witness :
    find_results_table [permTable] = [permTable].find? headerRowMatch ∧
    specExtractRow ((rowTh permHeaderRow).map (fun c => lowerStr c.text)) permDataRow ∈
      parse_main_rows permTable ∧
    parse_main_rows permTable =
      [{ citation := "CIT42", dateIssued := "01/02/2024", status := "OPEN",
         amountDue := "$33.00", expandTarget := Option.none }] := by
  refine ⟨c6_header_driven.1 [permTable] (by decide), ?_, by decide⟩
  exact c6_header_driven.2 "" permHeaderRow [permDataRow] permDataRow
    (by decide) (List.mem_cons_self _ _) (by decide) (by decide)

end ParkingApi
